import Mathlib

/-!
Verification development for the `gocue` CUE-sheet library.

The Go sources are shallowly embedded as Lean definitions:

* Go strings are modelled as `List Char` (`GoStr`), one element per rune.
  Byte positions (which Go's `for i, r := range s` loop exposes) are
  recovered with `Char.utf8Size`, so the byte-index arithmetic of
  `smartSplit` is reproduced exactly.
* Go `int` / `int64` are modelled as `Int`; Go's truncating division and
  remainder are `Int.tdiv` / `Int.tmod`.
* `time.Duration` is modelled as `Int` (a count of nanoseconds).
* Pointers: a `Track`'s unexported `parentFile` back-reference is the index
  of the owning file in the sheet's file list (`Option Nat`, `none` = nil);
  a `File`'s `parentSheet` back-reference is a `Bool` ("wired or not"),
  and functions reading through it receive the (unique) sheet explicitly.
  Pointer equality between `parentFile` fields becomes equality of indices,
  which is faithful because a parse produces a single sheet.
* The parser's `currentFile` / `currentTrack` pointers always designate the
  most recently appended file / the most recently appended track of that
  file (the only assignments in the Go code are right after the appends, and
  `FILE` resets the track pointer), so they are modelled as the two Booleans
  `hasFile` / `hasTrack` together with "modify the last element" updates.
* `strconv.Atoi` is modelled as exact parsing of an optionally signed
  decimal numeral to an unbounded `Int` (the `int64` range failure of the
  Go function is abstracted away), and `strings.ToUpper` as ASCII
  uppercasing, which agrees with Go on the inputs of interest.
-/

/-- Go strings, one list element per rune. -/
abbrev GoStr := List Char

/-- Conversion from a Lean string literal to the rune-list model. -/
def str (s : String) : GoStr := s.data

/-- Total byte length of a Go string (Go `len(s)` on a UTF-8 string). -/
def utf8Len (s : GoStr) : Nat := (s.map Char.utf8Size).sum

/-- `FramesPerSecond`: the Audio-CD frame rate constant of the package. -/
def FramesPerSecond : Int := 75

/-- `Timecode`: minutes/seconds/frames, as in the Go struct. -/
structure Timecode where
  Minutes : Int
  Seconds : Int
  Frames : Int
deriving DecidableEq, Inhabited

/-- `Timecode.TotalFrames`: total number of frames. -/
def Timecode.TotalFrames (t : Timecode) : Int :=
  t.Minutes * 60 * FramesPerSecond + t.Seconds * FramesPerSecond + t.Frames

/-- `Timecode.AsDuration`: nanoseconds, computed as in the Go method:
scale the frame count to nanoseconds first, divide by 75 afterwards. -/
def Timecode.AsDuration (t : Timecode) : Int :=
  Int.tdiv (t.TotalFrames * 1000000000) FramesPerSecond

/-- Go `fmt.Sprintf "%02d"`: decimal rendering left-padded with zeros to
width two. -/
def pad2 (n : Int) : GoStr :=
  let d := (toString n).data
  if d.length < 2 then '0' :: d else d

/-- `Timecode.String` in Go: the zero-padded `MM:SS:FF` rendering. -/
def Timecode.format (t : Timecode) : GoStr :=
  pad2 t.Minutes ++ [':'] ++ pad2 t.Seconds ++ [':'] ++ pad2 t.Frames

/-- `NewTimecodeFromFrames`: rebuild a `Timecode` from a total frame count,
clamping negative inputs to zero. -/
def NewTimecodeFromFrames (totalFrames : Int) : Timecode :=
  let tf0 := if totalFrames < 0 then 0 else totalFrames
  let minutes := Int.tdiv tf0 (60 * FramesPerSecond)
  let tf1 := Int.tmod tf0 (60 * FramesPerSecond)
  let seconds := Int.tdiv tf1 FramesPerSecond
  let frames := Int.tmod tf1 FramesPerSecond
  { Minutes := minutes, Seconds := seconds, Frames := frames }

/-- `Index`: an INDEX record. -/
structure Index where
  Number : Int
  Time : Timecode
deriving DecidableEq, Inhabited

/-- `Track`: one track. `parentFile` is the back-reference to the owning
file, modelled as its index in the sheet's file list (`none` = Go `nil`). -/
structure Track where
  Number : Int
  Typ : GoStr
  Title : GoStr
  Performer : GoStr
  Songwriter : GoStr
  ISRC : GoStr
  Flags : List GoStr
  Indices : List Index
  Pregap : Timecode
  Postgap : Timecode
  parentFile : Option Nat
deriving DecidableEq, Inhabited

/-- `Track.StartTime`: the time of the first index numbered 1, or the zero
timecode. -/
def Track.StartTime (t : Track) : Timecode :=
  match t.Indices.find? (fun idx => idx.Number = 1) with
  | some idx => idx.Time
  | none => { Minutes := 0, Seconds := 0, Frames := 0 }

/-- `File`: one FILE record. `parentSheet` (`Bool`) models whether the
back-reference to the owning sheet is wired (Go: `parentSheet != nil`);
functions that read through the pointer take the sheet as an argument. -/
structure File where
  Name : GoStr
  Typ : GoStr
  Tracks : List Track
  parentSheet : Bool
deriving DecidableEq, Inhabited

/-- `Cuesheet`: the root structure. -/
structure Cuesheet where
  Title : GoStr
  Performer : GoStr
  Songwriter : GoStr
  Catalog : GoStr
  Files : List File
  Rem : List GoStr
  CDTextFile : GoStr
deriving DecidableEq, Inhabited

/-- The search loop of `getTrackDuration`: walk the track list, stop at the
first track whose number matches, and pair it with the immediately following
track provided that one's number is the successor number. -/
def codeDurationScan (trackNumber : Int) : List Track → Option (Track × Option Track)
  | [] => none
  | tr :: rest =>
    if tr.Number = trackNumber then
      some (tr,
        match rest with
        | next :: _ => if next.Number = trackNumber + 1 then some next else none
        | [] => none)
    else codeDurationScan trackNumber rest

/-- The tail of `getTrackDuration` after the search loop: zero if either
track is missing, zero across a file boundary, zero for a negative
difference, otherwise the start-time difference in nanoseconds. -/
def durFromScan : Option (Track × Option Track) → Int
  | none => 0
  | some (_, none) => 0
  | some (cur, some next) =>
    if cur.parentFile ≠ next.parentFile then 0
    else if next.StartTime.AsDuration < cur.StartTime.AsDuration then 0
    else next.StartTime.AsDuration - cur.StartTime.AsDuration

/-- All tracks of all files of the sheet, in file order (the `allTracks`
slice built by `getTrackDuration` when the sheet back-reference is set). -/
def sheetTracks (sheet : Cuesheet) : List Track :=
  (sheet.Files.map File.Tracks).flatten

/-- `File.getTrackDuration`. The `sheet` argument is the dereference of
`f.parentSheet` when that pointer is set; when it is unset (`false`) the
code falls back to the file's own tracks. -/
def getTrackDuration (sheet : Cuesheet) (f : File) (trackNumber : Int) : Int :=
  let allTracks := if f.parentSheet then sheetTracks sheet else f.Tracks
  durFromScan (codeDurationScan trackNumber allTracks)

/-- `Track.Duration`: zero when the file back-reference is nil, otherwise
delegate to the owning file. Resolving the `parentFile` index in the sheet
models the pointer dereference; the out-of-range arm is unreachable for
parser-produced sheets. -/
def Track.Duration (sheet : Cuesheet) (t : Track) : Int :=
  match t.parentFile with
  | none => 0
  | some fi =>
    match sheet.Files[fi]? with
    | some f => getTrackDuration sheet f t.Number
    | none => 0

/-- Value of a run of decimal digits; `none` on the empty run or on any
non-digit character. -/
def digitsVal : List Char → Option Nat
  | [] => none
  | [c] => if c.isDigit then some (c.toNat - 48) else none
  | c :: rest =>
    if c.isDigit then
      match digitsVal rest with
      | some v => some ((c.toNat - 48) * 10 ^ rest.length + v)
      | none => none
    else none

/-- `strconv.Atoi`: optionally signed decimal numeral, every remaining
character a digit, at least one digit. (The `int64` range check of the Go
function is not modelled; see the header notes.) -/
def atoi (s : GoStr) : Option Int :=
  match s with
  | '+' :: rest => (digitsVal rest).map Int.ofNat
  | '-' :: rest => (digitsVal rest).map (fun v => -(Int.ofNat v))
  | _ => (digitsVal s).map Int.ofNat

/-- Go `strings.Split(s, ":")`: colon-separated fields, never empty as a
list (the empty string yields one empty field). -/
def splitOnColon : GoStr → List GoStr
  | [] => [[]]
  | ':' :: rest => [] :: splitOnColon rest
  | c :: rest =>
    match splitOnColon rest with
    | [] => [[c]]
    | h :: t => (c :: h) :: t

/-- `parseTimecode`: parse `MM:SS:FF`, with the range checks and error
messages of the Go function. -/
def parseTimecode (s : GoStr) : Except String Timecode :=
  match splitOnColon s with
  | [p0, p1, p2] =>
    match atoi p0 with
    | none => .error ("invalid minutes value: " ++ String.mk p0)
    | some minutes =>
      match atoi p1 with
      | none => .error ("invalid seconds value: " ++ String.mk p1)
      | some seconds =>
        if seconds > 59 then
          .error ("seconds value cannot exceed 59: " ++ toString seconds)
        else
          match atoi p2 with
          | none => .error ("invalid frames value: " ++ String.mk p2)
          | some frames =>
            if frames ≥ FramesPerSecond then
              .error ("frames value must be less than " ++ toString FramesPerSecond
                ++ ": " ++ toString frames)
            else .ok { Minutes := minutes, Seconds := seconds, Frames := frames }
  | _ => .error "timecode must be in MM:SS:FF format"

/-- One iteration of `smartSplit`'s `switch` statement. Returns the new
`(result, current, inQuote)` triple or the error of the `default` branch.
The quoted-command check is kept exactly where the Go code has it: in the
branch that handles runes other than `'"'`, `' '` and `'\t'`. -/
def smartSplitStep (result : List GoStr) (current : GoStr) (inQuote : Bool)
    (c : Char) : Except String (List GoStr × GoStr × Bool) :=
  if c = '"' then .ok (result, current, !inQuote)
  else if c = ' ' ∨ c = '\t' then
    if inQuote then .ok (result, current ++ [c], inQuote)
    else if current.length > 0 then .ok (result ++ [current], [], inQuote)
    else .ok (result, current, inQuote)
  else
    if result.length = 0 ∧ current.length = 0 ∧ c = '"' then
      .error "command cannot be quoted"
    else .ok (result, current ++ [c], inQuote)

/-- The loop of `smartSplit`. `total` is the byte length of the whole line
and `pos` the byte offset at which the current rune starts, because the Go
code compares the byte index `i` of `for i, r := range line` against
`len(line)-1` for its end-of-line quote check. -/
def smartSplitAux (total : Nat) (pos : Nat) (result : List GoStr)
    (current : GoStr) (inQuote : Bool) : GoStr → Except String (List GoStr)
  | [] => .ok (if current.length > 0 then result ++ [current] else result)
  | c :: rest =>
    match smartSplitStep result current inQuote c with
    | .error e => .error e
    | .ok (result1, current1, inQuote1) =>
      if pos = total - 1 ∧ inQuote1 then .error "mismatched quotes"
      else smartSplitAux total (pos + c.utf8Size) result1 current1 inQuote1 rest

/-- `smartSplit`: split one line into tokens, double quotes toggling an
"inside quotes" mode and never being emitted. -/
def smartSplit (line : GoStr) : Except String (List GoStr) :=
  smartSplitAux (utf8Len line) 0 [] [] false line

/-- The whitespace set of Go `strings.TrimSpace` (ASCII part). -/
def isSpaceChar (c : Char) : Bool :=
  c = ' ' ∨ c = '\t' ∨ c = '\n' ∨ c = '\x0b' ∨ c = '\x0c' ∨ c = '\r'

/-- Go `strings.TrimSpace` (restricted to ASCII whitespace). -/
def trimSpace (s : GoStr) : GoStr :=
  ((s.dropWhile isSpaceChar).reverse.dropWhile isSpaceChar).reverse

/-- Go `strings.ToUpper`, restricted to ASCII letters. -/
def toUpperAscii (s : GoStr) : GoStr := s.map Char.toUpper

/-- Go `strings.Join(args, " ")`. -/
def joinSpace : List GoStr → GoStr
  | [] => []
  | [a] => a
  | a :: rest => a ++ ' ' :: joinSpace rest

/-- Replace the last element of a list, if any (the effect of writing
through the `currentFile` / `currentTrack` pointer, which always designates
the most recently appended element). -/
def modifyLast (g : α → α) : List α → List α
  | [] => []
  | [a] => [g a]
  | a :: rest => a :: modifyLast g rest

/-- Parser state carried across lines. `hasFile` / `hasTrack` model the
nil-ness of `currentFile` / `currentTrack`; see the header notes. -/
structure ParseState where
  sheet : Cuesheet
  hasFile : Bool
  hasTrack : Bool
  pendingIndices : List Index
deriving DecidableEq, Inhabited

/-- Write through the `currentTrack` pointer: update the last track of the
last file. -/
def setLastTrack (st : ParseState) (g : Track → Track) : ParseState :=
  let upd := fun f => { f with Tracks := modifyLast g f.Tracks }
  { st with sheet := { st.sheet with Files := modifyLast upd st.sheet.Files } }

/-- `currentFile.Tracks = append(currentFile.Tracks, track)`: append a track
to the file designated by the `currentFile` pointer (the last one). -/
def appendTrackToLast (tr : Track) : List File → List File :=
  modifyLast (fun f => { f with Tracks := f.Tracks ++ [tr] })

/-- The `Track` literal built by the TRACK command: number and uppercased
type, all other fields Go zero values, pending indices attached. -/
def newTrack (num : Int) (ty : GoStr) (idxs : List Index) : Track :=
  { Number := num, Typ := ty, Title := [], Performer := [], Songwriter := [],
    ISRC := [], Flags := [], Indices := idxs,
    Pregap := { Minutes := 0, Seconds := 0, Frames := 0 },
    Postgap := { Minutes := 0, Seconds := 0, Frames := 0 },
    parentFile := none }

/-- `"line %d: "`-prefixed error text. -/
def lineErr (ln : Nat) (msg : String) : String :=
  "line " ++ toString ln ++ ": " ++ msg

/-- The error text `strconv.Atoi` wraps into the parser's message. -/
def atoiErrMsg (raw : GoStr) : String :=
  "strconv.Atoi: parsing \"" ++ String.mk raw ++ "\": invalid syntax"

/-- The `switch command` body of `Parse`, one case per recognized command,
in the order and with the checks of the Go code; unrecognized commands are
ignored. -/
def dispatch (ln : Nat) (st : ParseState) (command : GoStr) (args : List GoStr) :
    Except String ParseState :=
  if command = str "REM" then
    .ok (if args.length > 0 then
      { st with sheet := { st.sheet with Rem := st.sheet.Rem ++ [joinSpace args] } }
    else st)
  else if command = str "CATALOG" then
    match args with
    | [] => .error (lineErr ln "CATALOG command requires an argument")
    | a :: _ => .ok { st with sheet := { st.sheet with Catalog := a } }
  else if command = str "CDTEXTFILE" then
    match args with
    | [] => .error (lineErr ln "CDTEXTFILE command requires an argument")
    | a :: _ => .ok { st with sheet := { st.sheet with CDTextFile := a } }
  else if command = str "TITLE" then
    match args with
    | [] => .error (lineErr ln "TITLE command requires an argument")
    | a :: _ =>
      if st.hasTrack then .ok (setLastTrack st (fun t => { t with Title := a }))
      else .ok { st with sheet := { st.sheet with Title := a } }
  else if command = str "PERFORMER" then
    match args with
    | [] => .error (lineErr ln "PERFORMER command requires an argument")
    | a :: _ =>
      if st.hasTrack then .ok (setLastTrack st (fun t => { t with Performer := a }))
      else .ok { st with sheet := { st.sheet with Performer := a } }
  else if command = str "SONGWRITER" then
    match args with
    | [] => .error (lineErr ln "SONGWRITER command requires an argument")
    | a :: _ =>
      if st.hasTrack then .ok (setLastTrack st (fun t => { t with Songwriter := a }))
      else .ok { st with sheet := { st.sheet with Songwriter := a } }
  else if command = str "FILE" then
    match args with
    | a :: b :: _ =>
      .ok { st with
              sheet := { st.sheet with Files := st.sheet.Files ++
                [{ Name := a, Typ := toUpperAscii b, Tracks := [], parentSheet := false }] },
              hasFile := true, hasTrack := false, pendingIndices := [] }
    | _ => .error (lineErr ln "FILE command requires name and type arguments")
  else if command = str "TRACK" then
    if st.hasFile = false then
      .error (lineErr ln "TRACK command found outside of a FILE context")
    else
      match args with
      | a :: b :: _ =>
        match atoi a with
        | none => .error (lineErr ln ("invalid track number: " ++ atoiErrMsg a))
        | some num =>
          -- Go appends `pendingIndices` to the fresh track's empty index
          -- list when non-empty and then clears the buffer; attaching the
          -- buffer and clearing unconditionally is the same function.
          let track := newTrack num (toUpperAscii b) st.pendingIndices
          .ok { st with
                  sheet := { st.sheet with Files := appendTrackToLast track st.sheet.Files },
                  hasTrack := true, pendingIndices := [] }
      | _ => .error (lineErr ln "TRACK command requires number and type arguments")
  else if command = str "INDEX" then
    match args with
    | a :: b :: _ =>
      match atoi a with
      | none => .error (lineErr ln ("invalid index number: " ++ atoiErrMsg a))
      | some num =>
        match parseTimecode b with
        | .error e => .error (lineErr ln ("invalid timecode for INDEX: " ++ e))
        | .ok timecode =>
          if st.hasTrack then
            .ok (setLastTrack st (fun t =>
              { t with Indices := t.Indices ++ [{ Number := num, Time := timecode }] }))
          else if st.hasFile then
            .ok { st with pendingIndices :=
                    st.pendingIndices ++ [{ Number := num, Time := timecode }] }
          else .error (lineErr ln "INDEX command found outside of a FILE context")
    | _ => .error (lineErr ln "INDEX command requires number and timecode arguments")
  else if command = str "PREGAP" then
    if st.hasTrack = false then
      .error (lineErr ln "PREGAP command found outside of a TRACK context")
    else
      match args with
      | [] => .error (lineErr ln "PREGAP command requires a timecode argument")
      | a :: _ =>
        match parseTimecode a with
        | .error e => .error (lineErr ln ("invalid timecode for PREGAP: " ++ e))
        | .ok timecode => .ok (setLastTrack st (fun t => { t with Pregap := timecode }))
  else if command = str "POSTGAP" then
    if st.hasTrack = false then
      .error (lineErr ln "POSTGAP command found outside of a TRACK context")
    else
      match args with
      | [] => .error (lineErr ln "POSTGAP command requires a timecode argument")
      | a :: _ =>
        match parseTimecode a with
        | .error e => .error (lineErr ln ("invalid timecode for POSTGAP: " ++ e))
        | .ok timecode => .ok (setLastTrack st (fun t => { t with Postgap := timecode }))
  else if command = str "FLAGS" then
    if st.hasTrack = false then
      .error (lineErr ln "FLAGS command found outside of a TRACK context")
    else .ok (setLastTrack st (fun t => { t with Flags := t.Flags ++ args }))
  else if command = str "ISRC" then
    if st.hasTrack = false then
      .error (lineErr ln "ISRC command found outside of a TRACK context")
    else
      match args with
      | [] => .error (lineErr ln "ISRC command requires an argument")
      | a :: _ => .ok (setLastTrack st (fun t => { t with ISRC := a }))
  else .ok st

/-- One loop iteration of `Parse`: trim, skip blanks, tokenize (tagging a
tokenizer error with the line number), skip empty token lists, uppercase the
command word, dispatch. -/
def processLine (ln : Nat) (st : ParseState) (rawLine : GoStr) :
    Except String ParseState :=
  let line := trimSpace rawLine
  if line = [] then .ok st
  else
    match smartSplit line with
    | .error e => .error (lineErr ln ("invalid quoting: " ++ e))
    | .ok parts =>
      match parts with
      | [] => .ok st
      | cmd :: args => dispatch ln st (toUpperAscii cmd) args

/-- The scanner loop: 1-based line numbers, first error aborts. -/
def runLines (ln : Nat) (st : ParseState) : List GoStr → Except String ParseState
  | [] => .ok st
  | line :: rest =>
    match processLine (ln + 1) st line with
    | .error e => .error e
    | .ok st1 => runLines (ln + 1) st1 rest

/-- The empty sheet and parser state `Parse` starts from. -/
def initState : ParseState :=
  { sheet := { Title := [], Performer := [], Songwriter := [], Catalog := [],
               Files := [], Rem := [], CDTextFile := [] },
    hasFile := false, hasTrack := false, pendingIndices := [] }

/-- Wire a track's back-reference to file index `i`. -/
def wireTrack (i : Nat) (t : Track) : Track := { t with parentFile := some i }

/-- The finalization pass over the file list, starting at file index `i`:
set every file's sheet back-reference and every track's file
back-reference. -/
def wireFiles : Nat → List File → List File
  | _, [] => []
  | i, f :: fs =>
    { f with parentSheet := true, Tracks := f.Tracks.map (wireTrack i) } :: wireFiles (i + 1) fs

/-- The back-link wiring pass run by `Parse` just before returning. -/
def finalize (sheet : Cuesheet) : Cuesheet :=
  { sheet with Files := wireFiles 0 sheet.Files }

/-- `Parse`: run the line loop from the empty state, then wire the
back-references. -/
def Parse (input : List GoStr) : Except String Cuesheet :=
  match runLines 0 initState input with
  | .error e => .error e
  | .ok st => .ok (finalize st.sheet)

/-!
Claim-side formulation of duration inference, written from the
specification's words, independently of `getTrackDuration`: flatten the
sheet in file-then-track order while remembering which file each track came
from, locate track `n` by first index, and require its numeric successor to
be the next entry of the flattened list, in the same file, with a
non-negative start-time difference.
-/

/-- The sheet's tracks in file-then-track order, each tagged with the index
of the file it structurally belongs to; `i` is the index of the first file
of the list. -/
def taggedTracksAux : Nat → List File → List (Nat × Track)
  | _, [] => []
  | i, f :: fs => f.Tracks.map (fun t => (i, t)) ++ taggedTracksAux (i + 1) fs

/-- All tracks of the sheet tagged with their file's index. -/
def taggedTracks (sheet : Cuesheet) : List (Nat × Track) :=
  taggedTracksAux 0 sheet.Files

/-- Index of the first tagged track carrying number `n`. -/
def firstIdxWithNumber (n : Int) : List (Nat × Track) → Option Nat
  | [] => none
  | p :: rest =>
    if p.2.Number = n then some 0 else (firstIdxWithNumber n rest).map (· + 1)

/-- Duration of track `n` as the specification describes it, over a tagged
track list. -/
def durFromTagged (l : List (Nat × Track)) (n : Int) : Int :=
  match firstIdxWithNumber n l with
  | none => 0
  | some i =>
    match l[i]?, l[i + 1]? with
    | some (fi, cur), some (fj, next) =>
      if next.Number = n + 1 ∧ fi = fj ∧
          cur.StartTime.AsDuration ≤ next.StartTime.AsDuration then
        next.StartTime.AsDuration - cur.StartTime.AsDuration
      else 0
    | _, _ => 0

/-- Duration of track `n` of a sheet, as the specification describes it. -/
def durationSpec (sheet : Cuesheet) (n : Int) : Int :=
  durFromTagged (taggedTracks sheet) n

/-!  Concrete inputs used to instantiate the theorems below. -/

/-- A well-formed two-track cue sheet. -/
def exInput : List GoStr :=
  [ str "FILE \"a.wav\" WAVE", str "TRACK 01 AUDIO", str "INDEX 01 00:00:00",
    str "TRACK 02 AUDIO", str "INDEX 01 03:00:00" ]

/-- The sheet `Parse` produces for `exInput`. -/
def exSheet : Cuesheet :=
  match Parse exInput with
  | .ok s => s
  | .error _ => default

/-- The first file of `exSheet`. -/
def exFile : File :=
  match exSheet.Files with
  | f :: _ => f
  | [] => default

/-- The first track of `exFile`. -/
def exTrack : Track :=
  match exFile.Tracks with
  | t :: _ => t
  | [] => default

/-- A parser state in which a file, but no track, is in scope. -/
def exState : ParseState :=
  { sheet := { initState.sheet with
      Files := [{ Name := str "a.wav", Typ := str "WAVE", Tracks := [], parentSheet := false }] },
    hasFile := true, hasTrack := false, pendingIndices := [] }

/-!  Theorems settling the claims. -/

/-- Claim C2. The specification requires every line whose first character is
a double quote to fail tokenization with "command cannot be quoted". The
code cannot produce that error: a `'"'` rune is consumed by the quote-toggle
arm of the switch, so the check sitting in the default arm never sees one.
A line such as `"TITLE" foo` therefore tokenizes successfully. -/
theorem leading_quote_line_tokenizes_successfully :
    smartSplit (str "\"TITLE\" foo") = .ok [str "TITLE", str "foo"] := by rfl

/-- Claim C4. The specification requires every line ending inside a quoted
span to fail with "mismatched quotes", but the end-of-line check compares
the byte index at which the current rune starts against the byte length
minus one, so a line whose final rune is multi-byte skips the check: the
line `TITLE "é` (one unmatched quote) is accepted. -/
theorem unterminated_quote_multibyte_end_accepted :
    smartSplit (str "TITLE \"é") = .ok [str "TITLE", str "é"] := by rfl

/-- Claim C8: a FILE command with its two required arguments always resets
the pending-index buffer to empty and clears the current track while
appending the new file, so indices buffered under one file never survive
into a later file. -/
theorem file_command_resets_pending (ln : Nat) (st : ParseState) (a b : GoStr)
    (rest : List GoStr) :
    ∃ st1, dispatch ln st (str "FILE") (a :: b :: rest) = .ok st1 ∧
      st1.pendingIndices = [] ∧ st1.hasTrack = false ∧
      st1.sheet.Files = st.sheet.Files ++
        [{ Name := a, Typ := toUpperAscii b, Tracks := [], parentSheet := false }] :=
  ⟨_, rfl, rfl, rfl, rfl⟩

/-- Claim C7: with a file in scope and no track in scope, a well-formed
INDEX command is appended to the pending buffer and changes nothing else; a
subsequent well-formed TRACK command creates its track carrying the entire
buffer in order and clears the buffer; and a well-formed INDEX command with
no file in scope at all fails the parse with the missing-context error. -/
theorem index_buffering_flush_and_missing_context (ln : Nat) (st : ParseState)
    (a b : GoStr) (rest : List GoStr) (n : Int) (tc : Timecode)
    (ha : atoi a = some n) (hb : parseTimecode b = .ok tc) :
    (st.hasFile = true → st.hasTrack = false →
      dispatch ln st (str "INDEX") (a :: b :: rest) = .ok
        { st with pendingIndices := st.pendingIndices ++ [{ Number := n, Time := tc }] })
  ∧ (st.hasFile = false → st.hasTrack = false →
      dispatch ln st (str "INDEX") (a :: b :: rest) =
        .error (lineErr ln "INDEX command found outside of a FILE context"))
  ∧ (st.hasFile = true →
      dispatch ln st (str "TRACK") (a :: b :: rest) = .ok
        { st with
            sheet := { st.sheet with Files := appendTrackToLast (newTrack n (toUpperAscii b) st.pendingIndices) st.sheet.Files },
            hasTrack := true, pendingIndices := [] }) := by
  obtain ⟨sheet, hasFile, hasTrack, pending⟩ := st
  refine ⟨?_, ?_, ?_⟩
  · intro hf ht
    simp only at hf ht
    subst hf; subst ht
    simp only [dispatch, ha, hb]
    simp +decide
  · intro hf ht
    simp only at hf ht
    subst hf; subst ht
    simp only [dispatch, ha, hb]
    simp +decide
  · intro hf
    simp only at hf
    subst hf
    simp only [dispatch, ha]
    simp +decide

/-- Witness for `index_buffering_flush_and_missing_context`: its hypotheses
hold at the concrete state `exState` (file in scope, no track) and at
`initState` (no file in scope). -/
theorem index_buffering_flush_and_missing_context_witness :
    dispatch 2 exState (str "INDEX") [str "01", str "00:02:00"] = .ok
      { exState with pendingIndices := exState.pendingIndices ++
          [{ Number := 1, Time := { Minutes := 0, Seconds := 2, Frames := 0 } }] }
  ∧ dispatch 1 initState (str "INDEX") [str "01", str "00:02:00"] =
      .error (lineErr 1 "INDEX command found outside of a FILE context") :=
  ⟨(index_buffering_flush_and_missing_context 2 exState (str "01") (str "00:02:00") []
      1 { Minutes := 0, Seconds := 2, Frames := 0 } (by decide) rfl).1 rfl rfl,
   (index_buffering_flush_and_missing_context 1 initState (str "01") (str "00:02:00") []
      1 { Minutes := 0, Seconds := 2, Frames := 0 } (by decide) rfl).2.1 rfl rfl⟩

/-- Claim C3 counterexample: the FILE type argument is tokenized as `wave`
and the TRACK type argument as `audio`, but the document model stores the
uppercased `WAVE` and `AUDIO`, so those arguments are case-normalized. -/
theorem type_arguments_uppercased_counterexample :
    smartSplit (trimSpace (str "FILE \"a.wav\" wave")) = .ok [str "FILE", str "a.wav", str "wave"]
  ∧ (Parse [str "FILE \"a.wav\" wave", str "TRACK 01 audio"]).map
      (fun sh => sh.Files.map (fun f => (f.Typ, f.Tracks.map Track.Typ))) =
      .ok [(str "WAVE", [str "AUDIO"])]
  ∧ str "WAVE" ≠ str "wave" ∧ str "AUDIO" ≠ str "audio" :=
  ⟨rfl, rfl, by decide, by decide⟩

/-- Claim C3 as amended: parsing uppercases the command word (the first
token of each line, before dispatch) and also the FILE type argument and
the TRACK type argument; every other stored argument token — file name,
TITLE, PERFORMER and SONGWRITER in both their global and track scopes,
CATALOG, CDTEXTFILE, ISRC, and FLAGS — is stored in the document model
exactly as tokenized. -/
theorem arguments_verbatim_except_type_uppercasing (ln : Nat) (st : ParseState)
    (a b : GoStr) (rest : List GoStr) (n : Int) :
    (dispatch ln st (str "FILE") (a :: b :: rest) = .ok
      { st with
          sheet := { st.sheet with Files := st.sheet.Files ++ [{ Name := a, Typ := toUpperAscii b, Tracks := [], parentSheet := false }] },
          hasFile := true, hasTrack := false, pendingIndices := [] })
  ∧ (st.hasFile = true → atoi a = some n →
      dispatch ln st (str "TRACK") (a :: b :: rest) = .ok
        { st with
            sheet := { st.sheet with Files := appendTrackToLast (newTrack n (toUpperAscii b) st.pendingIndices) st.sheet.Files },
            hasTrack := true, pendingIndices := [] })
  ∧ (st.hasTrack = false →
      dispatch ln st (str "TITLE") (a :: rest) = .ok { st with sheet := { st.sheet with Title := a } })
  ∧ (st.hasTrack = true →
      dispatch ln st (str "TITLE") (a :: rest) = .ok (setLastTrack st (fun t => { t with Title := a })))
  ∧ (dispatch ln st (str "CATALOG") (a :: rest) = .ok { st with sheet := { st.sheet with Catalog := a } })
  ∧ (st.hasTrack = true →
      dispatch ln st (str "ISRC") (a :: rest) = .ok (setLastTrack st (fun t => { t with ISRC := a })))
  ∧ (st.hasTrack = true →
      dispatch ln st (str "FLAGS") (a :: rest) = .ok (setLastTrack st (fun t => { t with Flags := t.Flags ++ a :: rest })))
  ∧ (st.hasTrack = false →
      dispatch ln st (str "PERFORMER") (a :: rest) = .ok { st with sheet := { st.sheet with Performer := a } })
  ∧ (st.hasTrack = true →
      dispatch ln st (str "PERFORMER") (a :: rest) = .ok (setLastTrack st (fun t => { t with Performer := a })))
  ∧ (st.hasTrack = false →
      dispatch ln st (str "SONGWRITER") (a :: rest) = .ok { st with sheet := { st.sheet with Songwriter := a } })
  ∧ (st.hasTrack = true →
      dispatch ln st (str "SONGWRITER") (a :: rest) = .ok (setLastTrack st (fun t => { t with Songwriter := a })))
  ∧ (dispatch ln st (str "CDTEXTFILE") (a :: rest) = .ok { st with sheet := { st.sheet with CDTextFile := a } })
  ∧ (∀ line cmd args2, trimSpace line ≠ [] →
      smartSplit (trimSpace line) = .ok (cmd :: args2) →
      processLine ln st line = dispatch ln st (toUpperAscii cmd) args2) := by
  obtain ⟨sheet, hasFile, hasTrack, pending⟩ := st
  refine ⟨rfl, ?_, ?_, ?_, rfl, ?_, ?_, ?_, ?_, ?_, ?_, rfl, ?_⟩
  · intro hf ha
    simp only at hf
    subst hf
    simp only [dispatch, ha]
    simp +decide
  · intro ht
    simp only at ht
    subst ht
    rfl
  · intro ht
    simp only at ht
    subst ht
    rfl
  · intro ht
    simp only at ht
    subst ht
    rfl
  · intro ht
    simp only at ht
    subst ht
    rfl
  · intro ht
    simp only at ht
    subst ht
    rfl
  · intro ht
    simp only at ht
    subst ht
    rfl
  · intro ht
    simp only at ht
    subst ht
    rfl
  · intro ht
    simp only at ht
    subst ht
    rfl
  · intro line cmd args2 hne hsp
    simp only [processLine, hne, hsp]
    simp

/-- Witness for `arguments_verbatim_except_type_uppercasing`: its
hypotheses hold at the concrete state `exState`. -/
theorem arguments_verbatim_except_type_uppercasing_witness :
    dispatch 2 exState (str "TRACK") [str "01", str "audio"] = .ok
      { exState with
          sheet := { exState.sheet with Files := appendTrackToLast (newTrack 1 (toUpperAscii (str "audio")) exState.pendingIndices) exState.sheet.Files },
          hasTrack := true, pendingIndices := [] } :=
  (arguments_verbatim_except_type_uppercasing 2 exState (str "01") (str "audio") [] 1).2.1
    rfl (by decide)

/-- Claim C9: `AsDuration` first forms the integer total frame count, scales
it to nanoseconds by `10^9`, and divides by 75 only then; for every
canonical non-negative timecode up to 24 hours the result is the exact
floor of the real nanosecond value (error strictly below one nanosecond),
and the scaled product stays far below `2^63`, so the Go `int64`
arithmetic computes it exactly. -/
theorem asDuration_exact_nanoseconds (t : Timecode)
    (hm : 0 ≤ t.Minutes) (hs : 0 ≤ t.Seconds) (hf : 0 ≤ t.Frames)
    (h24 : t.TotalFrames ≤ 24 * 60 * 60 * 75) :
    t.AsDuration = (t.TotalFrames * 1000000000) / 75
  ∧ 75 * t.AsDuration ≤ t.TotalFrames * 1000000000
  ∧ t.TotalFrames * 1000000000 < 75 * (t.AsDuration + 1)
  ∧ t.TotalFrames * 1000000000 < 2 ^ 63 := by
  have htf : 0 ≤ t.TotalFrames := by
    simp only [Timecode.TotalFrames, FramesPerSecond]
    omega
  have ha : 0 ≤ t.TotalFrames * 1000000000 := by positivity
  have hd : t.AsDuration = (t.TotalFrames * 1000000000) / 75 := by
    simp only [Timecode.AsDuration, FramesPerSecond]
    exact Int.tdiv_eq_ediv ha (by norm_num)
  have hpow : (2 : Int) ^ 63 = 9223372036854775808 := by norm_num
  refine ⟨hd, by rw [hd]; omega, by rw [hd]; omega, by omega⟩

/-- Witness for `asDuration_exact_nanoseconds` at the one-frame timecode. -/
theorem asDuration_exact_nanoseconds_witness :
    Timecode.AsDuration { Minutes := 0, Seconds := 0, Frames := 1 } =
      (Timecode.TotalFrames { Minutes := 0, Seconds := 0, Frames := 1 } * 1000000000) / 75
  ∧ 75 * Timecode.AsDuration { Minutes := 0, Seconds := 0, Frames := 1 } ≤
      Timecode.TotalFrames { Minutes := 0, Seconds := 0, Frames := 1 } * 1000000000
  ∧ Timecode.TotalFrames { Minutes := 0, Seconds := 0, Frames := 1 } * 1000000000 <
      75 * (Timecode.AsDuration { Minutes := 0, Seconds := 0, Frames := 1 } + 1)
  ∧ Timecode.TotalFrames { Minutes := 0, Seconds := 0, Frames := 1 } * 1000000000 < 2 ^ 63 :=
  asDuration_exact_nanoseconds { Minutes := 0, Seconds := 0, Frames := 1 }
    (by decide) (by decide) (by decide) (by decide)

/-- Claim C10: `Track.Duration` returns zero outright when the track's file
back-reference is unset, and when a file's sheet back-reference is unset
`getTrackDuration` ignores the sheet entirely and scans only that file's
own track list. -/
theorem duration_total_on_unwired (sheet sheet2 : Cuesheet) (t : Track)
    (f : File) (n : Int) (ht : t.parentFile = none) (hf : f.parentSheet = false) :
    Track.Duration sheet t = 0
  ∧ getTrackDuration sheet f n = getTrackDuration sheet2 f n
  ∧ getTrackDuration sheet f n = durFromScan (codeDurationScan n f.Tracks) := by
  refine ⟨?_, ?_, ?_⟩
  · simp [Track.Duration, ht]
  · simp [getTrackDuration, hf]
  · simp [getTrackDuration, hf]

/-- Witness for `duration_total_on_unwired` at the default (unwired) track
and file values. -/
theorem duration_total_on_unwired_witness :
    Track.Duration exSheet default = 0
  ∧ getTrackDuration exSheet default 1 = getTrackDuration initState.sheet default 1
  ∧ getTrackDuration exSheet default 1 = durFromScan (codeDurationScan 1 (default : File).Tracks) :=
  duration_total_on_unwired exSheet initState.sheet default default 1 rfl rfl

/-- Claim C5 counterexample: `parseTimecode` also accepts non-canonical
renderings; `0:0:0` (seconds and frames in range) and `-1:00:00` are
accepted, but the format of the rebuilt timecode is `00:00:00`, which is
not the input string. -/
theorem timecode_roundtrip_counterexample :
    (parseTimecode (str "0:0:0") = .ok { Minutes := 0, Seconds := 0, Frames := 0 }
      ∧ Timecode.format (NewTimecodeFromFrames (Timecode.TotalFrames
          { Minutes := 0, Seconds := 0, Frames := 0 })) ≠ str "0:0:0")
  ∧ (parseTimecode (str "-1:00:00") = .ok { Minutes := -1, Seconds := 0, Frames := 0 }
      ∧ Timecode.format (NewTimecodeFromFrames (Timecode.TotalFrames
          { Minutes := -1, Seconds := 0, Frames := 0 })) ≠ str "-1:00:00") :=
  ⟨⟨rfl, by decide⟩, ⟨rfl, by decide⟩⟩

/-- Claim C5 as amended: for every accepted string whose parsed timecode
has non-negative minutes, seconds in `[0,59]` and frames in `[0,75)`, the
round trip through the total frame count reproduces the canonical
zero-padded rendering of the parsed value; it reproduces the input string
itself exactly when the input is already in that canonical form. -/
theorem timecode_roundtrip_canonical (s : GoStr) (t : Timecode)
    (hp : parseTimecode s = .ok t) (hm : 0 ≤ t.Minutes)
    (hs0 : 0 ≤ t.Seconds) (hs1 : t.Seconds ≤ 59)
    (hf0 : 0 ≤ t.Frames) (hf1 : t.Frames < 75) :
    Timecode.format (NewTimecodeFromFrames t.TotalFrames) = t.format
  ∧ (s = t.format → Timecode.format (NewTimecodeFromFrames t.TotalFrames) = s) := by
  have key : NewTimecodeFromFrames t.TotalFrames = t := by
    obtain ⟨m, sec, fr⟩ := t
    simp only at hm hs0 hs1 hf0 hf1
    simp only [Timecode.TotalFrames, NewTimecodeFromFrames, FramesPerSecond]
    have htf : 0 ≤ m * 60 * 75 + sec * 75 + fr := by omega
    rw [if_neg (by omega)]
    rw [Int.tdiv_eq_ediv htf (by norm_num), Int.tmod_eq_emod htf (by norm_num)]
    have hmod : 0 ≤ (m * 60 * 75 + sec * 75 + fr) % (60 * 75) :=
      Int.emod_nonneg _ (by norm_num)
    rw [Int.tdiv_eq_ediv hmod (by norm_num), Int.tmod_eq_emod hmod (by norm_num)]
    simp only [Timecode.mk.injEq]
    refine ⟨?_, ?_, ?_⟩ <;> omega
  refine ⟨by rw [key], fun hfmt => ?_⟩
  rw [key, hfmt]

/-- Witness for `timecode_roundtrip_canonical` at the canonical string
`12:34:56`. -/
theorem timecode_roundtrip_canonical_witness :
    Timecode.format (NewTimecodeFromFrames (Timecode.TotalFrames
      { Minutes := 12, Seconds := 34, Frames := 56 })) =
        Timecode.format { Minutes := 12, Seconds := 34, Frames := 56 }
  ∧ (str "12:34:56" = Timecode.format { Minutes := 12, Seconds := 34, Frames := 56 } →
      Timecode.format (NewTimecodeFromFrames (Timecode.TotalFrames
        { Minutes := 12, Seconds := 34, Frames := 56 })) = str "12:34:56") :=
  timecode_roundtrip_canonical (str "12:34:56") { Minutes := 12, Seconds := 34, Frames := 56 }
    rfl (by decide) (by decide) (by decide) (by decide) (by decide)

/-- Claim C6: `parseTimecode` fails unless the input splits into exactly
three colon-separated fields; the minutes field accepts any integer value
with no upper bound (in particular every non-negative one); the seconds
field makes it fail exactly when its value exceeds 59; the frames field
makes it fail exactly when its value is at least 75; and each field's own
numeric-parse failure is reported with that field's label and raw text. -/
theorem parseTimecode_field_validation (s : GoStr) :
    ((splitOnColon s).length ≠ 3 → parseTimecode s = .error "timecode must be in MM:SS:FF format")
  ∧ (∀ p0 p1 p2, splitOnColon s = [p0, p1, p2] →
      (atoi p0 = none → parseTimecode s = .error ("invalid minutes value: " ++ String.mk p0))
    ∧ (∀ m, atoi p0 = some m →
        (atoi p1 = none → parseTimecode s = .error ("invalid seconds value: " ++ String.mk p1))
      ∧ (∀ sec, atoi p1 = some sec →
          (sec > 59 → parseTimecode s = .error ("seconds value cannot exceed 59: " ++ toString sec))
        ∧ (sec ≤ 59 →
            (atoi p2 = none → parseTimecode s = .error ("invalid frames value: " ++ String.mk p2))
          ∧ (∀ fr, atoi p2 = some fr →
              (75 ≤ fr → parseTimecode s = .error ("frames value must be less than " ++ toString FramesPerSecond ++ ": " ++ toString fr))
            ∧ (parseTimecode s = .ok { Minutes := m, Seconds := sec, Frames := fr } ↔ fr < 75)))))) := by
  constructor
  · intro hlen
    rcases h : splitOnColon s with _ | ⟨a, _ | ⟨b, _ | ⟨c, _ | ⟨d, l⟩⟩⟩⟩
    · simp [parseTimecode, h]
    · simp [parseTimecode, h]
    · simp [parseTimecode, h]
    · exact absurd (by simp [h]) hlen
    · simp [parseTimecode, h]
  · intro p0 p1 p2 hsplit
    refine ⟨?_, ?_⟩
    · intro h0
      simp [parseTimecode, hsplit, h0]
    · intro m h0
      refine ⟨?_, ?_⟩
      · intro h1
        simp [parseTimecode, hsplit, h0, h1]
      · intro sec h1
        refine ⟨?_, ?_⟩
        · intro h59
          simp [parseTimecode, hsplit, h0, h1, h59]
        · intro hle
          refine ⟨?_, ?_⟩
          · intro h2
            simp [parseTimecode, hsplit, h0, h1, h2, show ¬ sec > 59 by omega]
          · intro fr h2
            refine ⟨?_, ?_⟩
            · intro h75
              simp [parseTimecode, hsplit, h0, h1, h2, FramesPerSecond,
                show ¬ sec > 59 by omega, h75]
            · constructor
              · intro hok
                by_contra hge
                simp [parseTimecode, hsplit, h0, h1, h2, FramesPerSecond,
                  show ¬ sec > 59 by omega, show (75:Int) ≤ fr by omega] at hok
              · intro hlt
                simp [parseTimecode, hsplit, h0, h1, h2, FramesPerSecond,
                  show ¬ sec > 59 by omega, show ¬ (75:Int) ≤ fr by omega]

/-- Witness for `parseTimecode_field_validation` at the out-of-range input
`00:60:00`. -/
theorem parseTimecode_field_validation_witness :
    parseTimecode (str "00:60:00") = .error ("seconds value cannot exceed 59: " ++ toString (60 : Int)) :=
  ((((parseTimecode_field_validation (str "00:60:00")).2 (str "00") (str "60") (str "00")
    rfl).2 0 rfl).2 60 rfl).1 (by norm_num)

/-- Every file produced by the wiring pass has its sheet back-reference
set. -/
theorem mem_wireFiles_parentSheet (fs : List File) (k : Nat) (f : File)
    (h : f ∈ wireFiles k fs) : f.parentSheet = true := by
  induction fs generalizing k with
  | nil => simp [wireFiles] at h
  | cons g gs ih =>
    simp only [wireFiles, List.mem_cons] at h
    rcases h with h | h
    · subst h; rfl
    · exact ih _ h

/-- After wiring, every track's file back-reference agrees with the tag of
the file it structurally belongs to. -/
theorem taggedTracksAux_wire_coherent (fs : List File) (k : Nat) (p : Nat × Track)
    (h : p ∈ taggedTracksAux k (wireFiles k fs)) : p.2.parentFile = some p.1 := by
  induction fs generalizing k with
  | nil => simp [wireFiles, taggedTracksAux] at h
  | cons g gs ih =>
    simp only [wireFiles, taggedTracksAux, List.mem_append, List.mem_map] at h
    rcases h with ⟨t, ⟨t0, ht0, rfl⟩, rfl⟩ | h
    · rfl
    · exact ih _ h

/-- Dropping the tags of the tagged track list gives the flattened
file-then-track list the duration code scans. -/
theorem map_snd_taggedTracksAux (fs : List File) (k : Nat) :
    (taggedTracksAux k fs).map Prod.snd = (fs.map File.Tracks).flatten := by
  induction fs generalizing k with
  | nil => rfl
  | cons g gs ih =>
    simp only [taggedTracksAux, List.map_append, List.map_cons, List.flatten_cons]
    rw [ih]
    congr 1
    rw [List.map_map]
    simp [Function.comp]

/-- On any tagged track list whose back-references agree with the tags, the
code's scan-then-compute pipeline agrees with the specification's
index-based description. -/
theorem durFromScan_eq_durFromTagged (l : List (Nat × Track)) (n : Int)
    (hco : ∀ p ∈ l, (p.2).parentFile = some p.1) :
    durFromScan (codeDurationScan n (l.map Prod.snd)) = durFromTagged l n := by
  induction l with
  | nil => rfl
  | cons p rest ih =>
    obtain ⟨j, t⟩ := p
    have hct : t.parentFile = some j := hco (j, t) (by simp)
    have hcr : ∀ q ∈ rest, (q.2).parentFile = some q.1 := fun q hq => hco q (by simp [hq])
    by_cases hn : t.Number = n
    · cases rest with
      | nil =>
        simp [codeDurationScan, durFromScan, durFromTagged, firstIdxWithNumber, hn]
      | cons q rest2 =>
        obtain ⟨j2, t2⟩ := q
        have hct2 : t2.parentFile = some j2 := hcr (j2, t2) (by simp)
        have hfirst : firstIdxWithNumber n ((j, t) :: (j2, t2) :: rest2) = some 0 := by
          simp [firstIdxWithNumber, hn]
        simp only [durFromTagged, hfirst, List.getElem?_cons_zero, List.getElem?_cons_succ,
          List.map_cons, codeDurationScan, hn, if_true, durFromScan]
        by_cases hnext : t2.Number = n + 1
        · simp only [hnext, if_true, durFromScan, hct, hct2]
          by_cases hjj : j = j2
          · subst hjj
            simp only [ne_eq, not_true, if_false, true_and, not_false_eq_true]
            by_cases hlt : t2.StartTime.AsDuration < t.StartTime.AsDuration
            · rw [if_pos hlt, if_neg (by omega)]
            · rw [if_neg hlt, if_pos (by omega)]
          · have : (some j ≠ some j2) := by simpa using hjj
            rw [if_pos this, if_neg (by simp [hjj])]
        · simp only [hnext, if_false, durFromScan]
          rw [if_neg (by simp [hnext])]
    · have hstep : codeDurationScan n (((j, t) :: rest).map Prod.snd) =
          codeDurationScan n (rest.map Prod.snd) := by
        simp [codeDurationScan, hn]
      rw [hstep, ih hcr]
      have hfirst : firstIdxWithNumber n ((j, t) :: rest) =
          (firstIdxWithNumber n rest).map (· + 1) := by
        simp [firstIdxWithNumber, hn]
      cases hix : firstIdxWithNumber n rest with
      | none => simp [durFromTagged, hfirst, hix]
      | some i =>
        simp only [durFromTagged, hfirst, hix, Option.map_some', List.getElem?_cons_succ]

/-- After wiring, a track of a member file points back at an index that
resolves to exactly that file. -/
theorem mem_wireFiles_track_idx (fs : List File) (k : Nat) (f : File) (t : Track)
    (hf : f ∈ wireFiles k fs) (ht : t ∈ f.Tracks) :
    ∃ j, t.parentFile = some (k + j) ∧ (wireFiles k fs)[j]? = some f := by
  induction fs generalizing k with
  | nil => simp [wireFiles] at hf
  | cons g gs ih =>
    simp only [wireFiles, List.mem_cons] at hf
    rcases hf with rfl | hf
    · refine ⟨0, ?_, by simp [wireFiles]⟩
      simp only [List.mem_map] at ht
      obtain ⟨t0, ht0, rfl⟩ := ht
      simp [wireTrack]
    · obtain ⟨j, hj, hget⟩ := ih (k + 1) hf
      refine ⟨j + 1, ?_, ?_⟩
      · rw [hj]
        congr 1
        omega
      · simpa [wireFiles, List.getElem?_cons_succ] using hget

/-- On a finalized sheet, `getTrackDuration` through any member file equals
the specification-side duration. -/
theorem finalize_getTrackDuration (s0 : Cuesheet) (f : File) (n : Int)
    (hf : f ∈ (finalize s0).Files) :
    getTrackDuration (finalize s0) f n = durationSpec (finalize s0) n := by
  have hps : f.parentSheet = true :=
    mem_wireFiles_parentSheet s0.Files 0 f (by simpa [finalize] using hf)
  unfold getTrackDuration
  rw [hps]
  simp only [if_true]
  have hmap : (taggedTracks (finalize s0)).map Prod.snd = sheetTracks (finalize s0) := by
    unfold taggedTracks sheetTracks finalize
    exact map_snd_taggedTracksAux (wireFiles 0 s0.Files) 0
  rw [← hmap]
  exact durFromScan_eq_durFromTagged (taggedTracks (finalize s0)) n
    (fun p hp => taggedTracksAux_wire_coherent s0.Files 0 p
      (by simpa [finalize, taggedTracks] using hp))

/-- Claim C1: on every parsed sheet, the duration of track `n` — via
`getTrackDuration` through any file of the sheet, and via `Track.Duration`
on any of its tracks — is what the specification describes: scan all tracks
of all files in file-then-track order for the first track numbered `n`; the
result is zero unless the entry immediately following it in that scan
exists, is numbered `n + 1`, and lies in the same file; otherwise it is the
successor's start time minus track `n`'s start time as real (nanosecond)
time, with zero replacing any negative difference. -/
theorem parsed_duration_matches_spec (input : List GoStr) (sheet : Cuesheet)
    (f : File) (t : Track) (n : Int) (h : Parse input = .ok sheet)
    (hf : f ∈ sheet.Files) (ht : t ∈ f.Tracks) :
    getTrackDuration sheet f n = durationSpec sheet n
  ∧ Track.Duration sheet t = durationSpec sheet t.Number := by
  have hex : ∃ s0, sheet = finalize s0 := by
    unfold Parse at h
    rcases hrun : runLines 0 initState input with e | st
    · rw [hrun] at h
      exact absurd h (by simp)
    · rw [hrun] at h
      injection h with h2
      exact ⟨st.sheet, h2.symm⟩
  obtain ⟨s0, rfl⟩ := hex
  have hfin : f ∈ wireFiles 0 s0.Files := by simpa [finalize] using hf
  obtain ⟨j, hpf, hget⟩ := mem_wireFiles_track_idx s0.Files 0 f t hfin ht
  have hget2 : (finalize s0).Files[j]? = some f := by simpa [finalize] using hget
  have hdur : Track.Duration (finalize s0) t = getTrackDuration (finalize s0) f t.Number := by
    simp only [Track.Duration, hpf, Nat.zero_add, hget2]
  refine ⟨finalize_getTrackDuration s0 f n hf, ?_⟩
  rw [hdur]
  exact finalize_getTrackDuration s0 f t.Number hf

/-- Witness for `parsed_duration_matches_spec` at the concrete parse of
`exInput`. -/
theorem parsed_duration_matches_spec_witness :
    getTrackDuration exSheet exFile 1 = durationSpec exSheet 1
  ∧ Track.Duration exSheet exTrack = durationSpec exSheet exTrack.Number :=
  parsed_duration_matches_spec exInput exSheet exFile exTrack 1 rfl (by decide) (by decide)
